import Mathlib

set_option maxRecDepth 4096

/-!
Verification development for the `sqlfmt` Go package (github.com/0x6b/sqlfmt),
a wrapper around the embedded sql-formatter JavaScript bundle executed in a
QuickJS context.

The wrapper logic of `sqlfmt.go` is embedded shallowly:
* the post-processing regular expression `(?m)([^\n\s])\s\(` with replacement
  `$1(` becomes an executable scan over the character list;
* `FormatOptions` and its `encoding/json` serialization (struct order,
  `omitempty`) become a record and an executable encoder;
* the QuickJS engine and the embedded bundle are external collaborators; their
  observable behaviour at the wrapper boundary (context creation, the two
  `Eval` calls of the initialization, and `CallFunc "formatSql"`) is abstracted
  as an `EngineWorld` record of oracles;
* `Formatter` state (`closed` flag, owned context) is explicit; `Format`
  additionally records the engine invocations it performs so that
  "no engine access" claims are expressible;
* the `sync.Mutex` discipline is embedded as a small transition system:
  each operation on a handle is the sequence of atomic actions it performs,
  and a step relation enforces only the mutex semantics (`Lock` blocks while
  the lock is held).
-/

namespace sqlfmt

/-- RE2 whitespace class `\s` as implemented by Go's `regexp` package:
`[\t\n\f\r ]` (note: it contains the newline and the tab, not only the
space character). -/
def isRE2Space (c : Char) : Bool :=
  c == '\t' || c == '\n' || c == '\x0c' || c == '\r' || c == ' '

/-- `spaceBeforeParenRegex.ReplaceAllString s "$1("` from `Formatter.Format`
(sqlfmt.go line 219), where `spaceBeforeParenRegex` is
`regexp.MustCompile("(?m)([^\n\s])\s\(")` (line 32): a left-to-right scan
replacing each leftmost non-overlapping match of
`<not RE2-whitespace> <RE2-whitespace> (` by dropping the middle character.
`(?m)` only changes the meaning of the anchors `^`/`$`, which the pattern
does not contain.  Go regexps work on runes for valid UTF-8 input, so the
character-list scan is exact. -/
def replaceSpaceBeforeParenList : List Char → List Char
  | [] => []
  | [c] => [c]
  | [c1, c2] => [c1, c2]
  | c1 :: c2 :: c3 :: rest =>
    if c3 == '(' && !isRE2Space c1 && isRE2Space c2 then
      c1 :: '(' :: replaceSpaceBeforeParenList rest
    else
      c1 :: replaceSpaceBeforeParenList (c2 :: c3 :: rest)

/-- String version of the post-processing step applied to the engine's
returned text. -/
def replaceSpaceBeforeParen (s : String) : String :=
  String.mk (replaceSpaceBeforeParenList s.data)

/-- Go `type CaseOption string`. -/
abbrev CaseOption := String

def CaseOptionPreserve : CaseOption := "preserve"

def CaseOptionUpper : CaseOption := "upper"

def CaseOptionLower : CaseOption := "lower"

/-- Go `type LogicalOperatorNewlineOption string`. -/
abbrev LogicalOperatorNewlineOption := String

def LogicalOperatorNewlineBefore : LogicalOperatorNewlineOption := "before"

def LogicalOperatorNewlineAfter : LogicalOperatorNewlineOption := "after"

/-- Go `type IndentStyleOption string`. -/
abbrev IndentStyleOption := String

def IndentStyleStandard : IndentStyleOption := "standard"

def IndentStyleTabularLeft : IndentStyleOption := "tabularLeft"

def IndentStyleTabularRight : IndentStyleOption := "tabularRight"

/-- Go `type LanguageOption string`. -/
abbrev LanguageOption := String

def LanguageSQL : LanguageOption := "sql"

def LanguageBigQuery : LanguageOption := "bigquery"

def LanguageDB2 : LanguageOption := "db2"

def LanguageDB2i : LanguageOption := "db2i"

def LanguageDuckDB : LanguageOption := "duckdb"

def LanguageHive : LanguageOption := "hive"

def LanguageMariaDB : LanguageOption := "mariadb"

def LanguageMySQL : LanguageOption := "mysql"

def LanguageTiDB : LanguageOption := "tidb"

def LanguageN1QL : LanguageOption := "n1ql"

def LanguagePLSQL : LanguageOption := "plsql"

def LanguagePostgreSQL : LanguageOption := "postgresql"

def LanguageRedshift : LanguageOption := "redshift"

def LanguageSingleStoreDB : LanguageOption := "singlestoredb"

def LanguageSnowflake : LanguageOption := "snowflake"

def LanguageSpark : LanguageOption := "spark"

def LanguageSQLite : LanguageOption := "sqlite"

def LanguageTransactSQL : LanguageOption := "transactsql"

def LanguageTSQL : LanguageOption := "tsql"

def LanguageTrino : LanguageOption := "trino"

/-- Go struct `FormatOptions` (sqlfmt.go lines 97-124), fields in declaration
order; every field carries a `json:"...,omitempty"` tag. -/
structure FormatOptions where
  DataTypeCase : CaseOption
  DenseOperators : Bool
  ExpressionWidth : Int
  FunctionCase : CaseOption
  IdentifierCase : CaseOption
  IndentStyle : IndentStyleOption
  KeywordCase : CaseOption
  Language : LanguageOption
  LinesBetweenQueries : Int
  LogicalOperatorNewline : LogicalOperatorNewlineOption
  NewlineBeforeSemicolon : Bool
  TabWidth : Int
  UseTabs : Bool
  deriving DecidableEq

/-- `DefaultFormatOptions` (sqlfmt.go lines 127-141). -/
def DefaultFormatOptions : FormatOptions :=
  { DataTypeCase := CaseOptionUpper
    DenseOperators := false
    ExpressionWidth := 80
    FunctionCase := CaseOptionUpper
    IdentifierCase := CaseOptionPreserve
    IndentStyle := IndentStyleStandard
    KeywordCase := CaseOptionUpper
    Language := LanguageSQL
    LinesBetweenQueries := 2
    LogicalOperatorNewline := LogicalOperatorNewlineAfter
    NewlineBeforeSemicolon := true
    TabWidth := 4
    UseTabs := false }

/-- Hex digits as used by Go `encoding/json` (`0123456789abcdef`). -/
def jsonHexDigit (n : Nat) : Char :=
  if n < 10 then Char.ofNat (48 + n) else Char.ofNat (87 + n)

/-- Escaping of a single character inside a JSON string literal, following Go
`encoding/json` with its default HTML escaping: `"` and `\` and the named
control escapes `\n`, `\r`, `\t`; other control characters as well as `<`,
`>`, `&` as `\u00xx`; U+2028/U+2029 as ` `/` `; everything else
verbatim. -/
def jsonEscapeChar (c : Char) : List Char :=
  if c = '"' then ['\\', '"']
  else if c = '\\' then ['\\', '\\']
  else if c = '\n' then ['\\', 'n']
  else if c = '\r' then ['\\', 'r']
  else if c = '\t' then ['\\', 't']
  else if c = '<' ∨ c = '>' ∨ c = '&' ∨ c.toNat < 32 then
    ['\\', 'u', '0', '0', jsonHexDigit (c.toNat / 16), jsonHexDigit (c.toNat % 16)]
  else if c.toNat = 8232 ∨ c.toNat = 8233 then
    ['\\', 'u', '2', '0', '2', jsonHexDigit (c.toNat % 16)]
  else [c]

/-- A Go JSON string literal: quote, escaped characters, quote. -/
def jsonQuote (s : String) : String :=
  "\"" ++ String.mk (s.data.foldr (fun c acc => jsonEscapeChar c ++ acc) []) ++ "\""

/-- The key/value pairs emitted by `json.Marshal` for a `FormatOptions`
value: struct fields in declaration order, each omitted when at its zero
value (`""` for the string-typed enum fields, `false` for booleans, `0` for
integers) because every field carries `omitempty`. -/
def optionFields (o : FormatOptions) : List (String × String) :=
  (if o.DataTypeCase = "" then [] else [("dataTypeCase", jsonQuote o.DataTypeCase)]) ++
  (if o.DenseOperators = false then [] else [("denseOperators", "true")]) ++
  (if o.ExpressionWidth = 0 then [] else [("expressionWidth", toString o.ExpressionWidth)]) ++
  (if o.FunctionCase = "" then [] else [("functionCase", jsonQuote o.FunctionCase)]) ++
  (if o.IdentifierCase = "" then [] else [("identifierCase", jsonQuote o.IdentifierCase)]) ++
  (if o.IndentStyle = "" then [] else [("indentStyle", jsonQuote o.IndentStyle)]) ++
  (if o.KeywordCase = "" then [] else [("keywordCase", jsonQuote o.KeywordCase)]) ++
  (if o.Language = "" then [] else [("language", jsonQuote o.Language)]) ++
  (if o.LinesBetweenQueries = 0 then [] else
    [("linesBetweenQueries", toString o.LinesBetweenQueries)]) ++
  (if o.LogicalOperatorNewline = "" then [] else
    [("logicalOperatorNewline", jsonQuote o.LogicalOperatorNewline)]) ++
  (if o.NewlineBeforeSemicolon = false then [] else [("newlineBeforeSemicolon", "true")]) ++
  (if o.TabWidth = 0 then [] else [("tabWidth", toString o.TabWidth)]) ++
  (if o.UseTabs = false then [] else [("useTabs", "true")])

/-- `json.Marshal(options)` for `FormatOptions`: the JSON object text.  For
this flat struct of strings, booleans and integers Go's `json.Marshal`
cannot fail, so the encoder is total. -/
def marshalFormatOptions (o : FormatOptions) : String :=
  "\x7b" ++
    String.intercalate ","
      ((optionFields o).map (fun kv => jsonQuote kv.1 ++ ":" ++ kv.2)) ++
  "\x7d"

/-- A dynamic value coming back from `ctx.CallFunc`: Go `interface{}`
restricted to what `Format` distinguishes — a string, or a value of some
other dynamic type (carrying the type name that `%T` would print). -/
inductive GoValue where
  | str (s : String)
  | other (typeName : String)
  deriving DecidableEq

/-- The errors produced (or merely declared) by the package: the three
sentinels of sqlfmt.go lines 20-24 and the wrapped `fmt.Errorf` failures of
`NewFormatter`/`initialize`/`Format`, one constructor per format string. -/
inductive GoError where
  | errEmptySQL
  | errSQLTooLarge
  | errFormatterClosed
  | creatingContext (msg : String)
  | evaluatingBundle (msg : String)
  | settingUpFormatSql (msg : String)
  | marshalingOptions (msg : String)
  | callingFormatSql (msg : String)
  | unexpectedResultType (typeName : String)
  deriving DecidableEq

/-- The behaviour of the external collaborators (QuickJS and the embedded
sql-formatter bundle) at the wrapper boundary: whether `quickjs.NewContext`
fails, whether the two `Eval` calls of `initialize` fail, and what
`ctx.CallFunc "formatSql" sql optionsJSON` returns. -/
structure EngineWorld where
  newContextErr : Option String
  evalBundleErr : Option String
  evalSetupErr : Option String
  callFunc : String → String → Except String GoValue

/-- Go struct `Formatter` (sqlfmt.go lines 144-148): the owned engine
context (represented by its callable behaviour) and the closed flag.  The
`sync.Mutex` is embedded separately as the transition system below. -/
structure Formatter where
  ctx : String → String → Except String GoValue
  closed : Bool

/-- The observable outcome of one `Format` call: the returned string, the
returned error (`none` = nil), and the list of engine invocations performed
(each recorded as the `(sql, optionsJSON)` argument pair passed to
`ctx.CallFunc "formatSql"`). -/
structure FormatResult where
  out : String
  err : Option GoError
  engineCalls : List (String × String)
  deriving DecidableEq

/-- `NewFormatter` (sqlfmt.go lines 152-166) together with `initialize`
(lines 169-189): create the context, evaluate the embedded bundle, evaluate
the `formatSql` adapter snippet; each failure aborts with its wrapped
error; on success the handle is open and owns the context. -/
def NewFormatter (w : EngineWorld) : Except GoError Formatter :=
  match w.newContextErr with
  | some e => .error (.creatingContext e)
  | none =>
    match w.evalBundleErr with
    | some e => .error (.evaluatingBundle e)
    | none =>
      match w.evalSetupErr with
      | some e => .error (.settingUpFormatSql e)
      | none => .ok { ctx := w.callFunc, closed := false }

/-- `(*Formatter).Format` (sqlfmt.go lines 192-222): under the lock — if
closed, return `("", ErrFormatterClosed)` without touching the engine;
otherwise marshal the options (which cannot fail for this struct), call
`formatSql` across the engine boundary, require a string result, and apply
the space-before-parenthesis post-processing. -/
def Formatter.Format (f : Formatter) (sql : String) (options : FormatOptions) : FormatResult :=
  if f.closed then
    { out := "", err := some .errFormatterClosed, engineCalls := [] }
  else
    let optionsJSON := marshalFormatOptions options
    match f.ctx sql optionsJSON with
    | .error e =>
      { out := "", err := some (.callingFormatSql e), engineCalls := [(sql, optionsJSON)] }
    | .ok (.str s) =>
      { out := replaceSpaceBeforeParen s, err := none, engineCalls := [(sql, optionsJSON)] }
    | .ok (.other t) =>
      { out := "", err := some (.unexpectedResultType t), engineCalls := [(sql, optionsJSON)] }

/-- `(*Formatter).Close` (sqlfmt.go lines 227-237): under the lock — if
already closed, a no-op returning nil; otherwise set the closed flag and
return nil.  Returns the new handle state and the returned error. -/
def Formatter.Close (f : Formatter) : Formatter × Option GoError :=
  if f.closed then (f, none) else ({ f with closed := true }, none)

/-- Package-level one-shot `Format` (sqlfmt.go lines 258-268): create a
handle (propagating the creation error), perform one handle-level `Format`
call, then close the handle, discarding the close error.  The second
component is the final state of the created handle (`none` when creation
failed and no handle existed). -/
def Format (w : EngineWorld) (sql : String) (options : FormatOptions) :
    FormatResult × Option Formatter :=
  match NewFormatter w with
  | .error e => ({ out := "", err := some e, engineCalls := [] }, none)
  | .ok f => (f.Format sql options, some (f.Close).1)

/-- Atomic actions performed by one operation on a handle.  `Format` and
`Close` both start with `mu.Lock()` and end (via `defer`) with
`mu.Unlock()`; in between they touch the closed flag, the options encoder,
and the engine context. -/
inductive Action where
  | lock
  | unlock
  | checkClosed
  | marshalOptions
  | engineCall
  | typeAssert
  | postprocessResult
  | setClosed
  deriving DecidableEq

/-- The action sequence of `(*Formatter).Format` on an open handle. -/
def formatOpenProg : List Action :=
  [.lock, .checkClosed, .marshalOptions, .engineCall, .typeAssert, .postprocessResult, .unlock]

/-- The action sequence of `(*Formatter).Format` on a closed handle; the
sequence of `(*Formatter).Close` on a closed handle is the same (check the
flag, return). -/
def formatClosedProg : List Action := [.lock, .checkClosed, .unlock]

/-- The action sequence of `(*Formatter).Close` on an open handle. -/
def closeOpenProg : List Action := [.lock, .checkClosed, .setClosed, .unlock]

/-- The possible per-operation action sequences against one handle. -/
def handleProgs : List (List Action) := [formatOpenProg, formatClosedProg, closeOpenProg]

/-- A snapshot of one handle's mutex and of the remaining action sequence of
each thread of control (threads are named by naturals; a thread that is not
running an operation has remaining sequence `[]` or its untouched full
program). -/
structure Config where
  holder : Option Nat
  rem : Nat → List Action

/-- Interleaving semantics: a thread executes the head action of its
remaining sequence.  Only the mutex semantics is enforced: `lock` is
enabled only while no thread holds the lock and acquires it, `unlock`
releases it, and every other action is unguarded — that the other actions
happen only under the lock is a consequence of the operations' shape, not
an assumption. -/
inductive HStep : Config → Nat × Action → Config → Prop where
  | lockStep (c : Config) (t : Nat) (rest : List Action)
      (hrem : c.rem t = Action.lock :: rest) (hfree : c.holder = none) :
      HStep c (t, Action.lock) { holder := some t, rem := Function.update c.rem t rest }
  | unlockStep (c : Config) (t : Nat) (rest : List Action)
      (hrem : c.rem t = Action.unlock :: rest) :
      HStep c (t, Action.unlock) { holder := none, rem := Function.update c.rem t rest }
  | workStep (c : Config) (t : Nat) (a : Action) (rest : List Action)
      (hrem : c.rem t = a :: rest) (hl : a ≠ Action.lock) (hu : a ≠ Action.unlock) :
      HStep c (t, a) { holder := c.holder, rem := Function.update c.rem t rest }

/-- Configurations reachable from the initial one in which no thread has
started (each thread still has its full program and the lock is free). -/
inductive Reachable (progs : Nat → List Action) : Config → Prop where
  | init : Reachable progs { holder := none, rem := progs }
  | step {c d : Config} {p : Nat × Action} :
      Reachable progs c → HStep c p d → Reachable progs d

/-- Lock invariant: every thread's remaining sequence is a suffix of its
program, and any thread that is mid-operation (it has consumed its initial
`lock` but not reached past its final `unlock`) is the lock holder. -/
def LockInv (progs : Nat → List Action) (c : Config) : Prop :=
  (∀ t, c.rem t <:+ progs t) ∧
  ∀ t, c.rem t ≠ progs t → c.rem t ≠ [] → c.holder = some t

/-- An engine stub used to build concrete handles in witnesses. -/
def stubEngine : String → String → Except String GoValue := fun _ _ => .ok (.str "stub")

/-- Concrete thread programs for the witness: every thread runs `Close` on
an open handle. -/
def progs0 : Nat → List Action := fun _ => closeOpenProg

/-- Initial configuration for `progs0`. -/
def cfg0 : Config := { holder := none, rem := progs0 }

/-- Configuration after thread 0 acquired the lock. -/
def cfg1 : Config :=
  { holder := some 0,
    rem := Function.update progs0 0 [Action.checkClosed, Action.setClosed, Action.unlock] }

/-- Configuration after thread 0 additionally checked the closed flag. -/
def cfg2 : Config :=
  { holder := some 0, rem := Function.update cfg1.rem 0 [Action.setClosed, Action.unlock] }

/-! ## Theorems -/

theorem filter_ite_single {α : Type} (p : α → Bool) (c : Prop) [Decidable c] (x : α) :
    List.filter p (if c then ([] : List α) else [x]) =
      if c then [] else List.filter p [x] := by
  split <;> rfl

/-- C7: `DefaultFormatOptions` uses uppercase keyword, function and
data-type case, preserves identifier case, standard indent style with a tab
width of 4 and tabs disabled, the generic `sql` dialect, 2 lines between
queries, and the semicolon on its own line. -/
theorem defaultFormatOptions_values :
    DefaultFormatOptions.KeywordCase = "upper" ∧
    DefaultFormatOptions.FunctionCase = "upper" ∧
    DefaultFormatOptions.DataTypeCase = "upper" ∧
    DefaultFormatOptions.IdentifierCase = "preserve" ∧
    DefaultFormatOptions.IndentStyle = "standard" ∧
    DefaultFormatOptions.TabWidth = 4 ∧
    DefaultFormatOptions.UseTabs = false ∧
    DefaultFormatOptions.Language = "sql" ∧
    DefaultFormatOptions.LinesBetweenQueries = 2 ∧
    DefaultFormatOptions.NewlineBeforeSemicolon = true := by
  decide

/-- C1 (code bug): the post-processing regex `(?m)([^\n\s])\s\(` uses `\s`,
which in Go's RE2 matches `[\t\n\f\r ]`, not only the space character.  On
engine output `"a\n("` it therefore deletes the newline itself, joining the
two lines even though the `(` begins a line — a match spanning a line
boundary, contradicting the code's own comment ("matches a space before (
that is not at the start of a line", "\s matches the space we want to
remove").  A tab before `(` is deleted as well.  The middle conjuncts show
the intended in-line behaviour for contrast. -/
theorem postprocess_joins_lines_bug :
    replaceSpaceBeforeParen "a\n(" = "a(" ∧
    replaceSpaceBeforeParen "COUNT (x)" = "COUNT(x)" ∧
    replaceSpaceBeforeParen "SELECT\n    (1)" = "SELECT\n    (1)" ∧
    replaceSpaceBeforeParen "a\t(" = "a(" := by
  decide

/-- C2: `Format` on a closed handle returns the empty string together with
the `ErrFormatterClosed` sentinel and performs no engine access: the list of
engine invocations is empty and the result does not depend on the engine
context or on the options (so neither the serialization's output nor the
engine is consulted). -/
theorem format_after_close_rejected (f : Formatter) (h : f.closed = true)
    (sql : String) (options : FormatOptions) :
    f.Format sql options =
      { out := "", err := some GoError.errFormatterClosed, engineCalls := [] } := by
  simp [Formatter.Format, h]

theorem format_after_close_rejected_witness :
    ({ ctx := stubEngine, closed := true } : Formatter).closed = true ∧
    ({ ctx := stubEngine, closed := true } : Formatter).Format "SELECT 1" DefaultFormatOptions =
      { out := "", err := some GoError.errFormatterClosed, engineCalls := [] } :=
  ⟨rfl, format_after_close_rejected _ rfl "SELECT 1" DefaultFormatOptions⟩

/-- C3: `Close` always returns nil, leaves the handle closed with its
context intact, a second `Close` is a no-op that again returns nil, and
every `Format` after a `Close` fails with the closed-handle sentinel
(`Format` itself never mutates the handle, so nothing resets the flag). -/
theorem close_idempotent_permanent (f : Formatter) (sql : String) (options : FormatOptions) :
    (f.Close).2 = none ∧
    (f.Close).1.closed = true ∧
    (f.Close).1.ctx = f.ctx ∧
    (f.Close).1.Close = ((f.Close).1, none) ∧
    (f.Close).1.Format sql options =
      { out := "", err := some GoError.errFormatterClosed, engineCalls := [] } := by
  cases hc : f.closed <;> simp [Formatter.Close, Formatter.Format, hc]

/-- C4: the package-level one-shot `Format` propagates handle-creation
errors without any engine call, otherwise performs exactly one handle-level
`Format` call on the fresh handle and returns exactly its result, and the
handle is closed afterwards unconditionally (the close error — always nil —
is discarded). -/
theorem oneshot_format_spec (w : EngineWorld) (sql : String) (options : FormatOptions) :
    Format w sql options =
      match NewFormatter w with
      | .error e => ({ out := "", err := some e, engineCalls := [] }, none)
      | .ok f => (f.Format sql options, some { ctx := f.ctx, closed := true }) := by
  obtain ⟨nc, eb, es, cf⟩ := w
  cases nc <;> cases eb <;> cases es <;>
    simp [Format, NewFormatter, Formatter.Close]

theorem format_err_shape (f : Formatter) (sql : String) (options : FormatOptions) :
    (f.Format sql options).err = none ∨
    (f.Format sql options).err = some GoError.errFormatterClosed ∨
    (∃ m, (f.Format sql options).err = some (GoError.callingFormatSql m)) ∨
    (∃ t, (f.Format sql options).err = some (GoError.unexpectedResultType t)) := by
  unfold Formatter.Format
  cases hc : f.closed
  · simp only [Bool.false_eq_true, if_false]
    cases hv : f.ctx sql (marshalFormatOptions options) with
    | error m => exact Or.inr (Or.inr (Or.inl ⟨m, rfl⟩))
    | ok v =>
      cases v with
      | str s => exact Or.inl rfl
      | other t => exact Or.inr (Or.inr (Or.inr ⟨t, rfl⟩))
  · simp

theorem oneshot_err_shape (w : EngineWorld) (sql : String) (options : FormatOptions) :
    (∃ m, (Format w sql options).1.err = some (GoError.creatingContext m)) ∨
    (∃ m, (Format w sql options).1.err = some (GoError.evaluatingBundle m)) ∨
    (∃ m, (Format w sql options).1.err = some (GoError.settingUpFormatSql m)) ∨
    ∃ f : Formatter, f.closed = false ∧ (Format w sql options).1 = f.Format sql options := by
  obtain ⟨nc, eb, es, cf⟩ := w
  cases nc with
  | some e => exact Or.inl ⟨e, rfl⟩
  | none =>
    cases eb with
    | some e => exact Or.inr (Or.inl ⟨e, rfl⟩)
    | none =>
      cases es with
      | some e => exact Or.inr (Or.inr (Or.inl ⟨e, rfl⟩))
      | none =>
        exact Or.inr (Or.inr (Or.inr ⟨{ ctx := cf, closed := false }, rfl, rfl⟩))

/-- C6: no call path raises the declared-but-unused sentinels: neither a
handle-level `Format` (closed or open, any engine outcome, any SQL — the
empty string included) nor the package-level one-shot `Format` ever returns
`ErrEmptySQL` or `ErrSQLTooLarge`, and no size limit is enforced anywhere on
the path. -/
theorem no_empty_or_toolarge_sentinels (w : EngineWorld) (f : Formatter)
    (sql : String) (options : FormatOptions) :
    (f.Format sql options).err ≠ some GoError.errEmptySQL ∧
    (f.Format sql options).err ≠ some GoError.errSQLTooLarge ∧
    (Format w sql options).1.err ≠ some GoError.errEmptySQL ∧
    (Format w sql options).1.err ≠ some GoError.errSQLTooLarge := by
  have hformatter : ∀ (g : Formatter),
      (g.Format sql options).err ≠ some GoError.errEmptySQL ∧
      (g.Format sql options).err ≠ some GoError.errSQLTooLarge := by
    intro g
    rcases format_err_shape g sql options with h | h | ⟨m, h⟩ | ⟨t, h⟩ <;> simp [h]
  have hpkg : (Format w sql options).1.err ≠ some GoError.errEmptySQL ∧
      (Format w sql options).1.err ≠ some GoError.errSQLTooLarge := by
    rcases oneshot_err_shape w sql options with ⟨m, h⟩ | ⟨m, h⟩ | ⟨m, h⟩ | ⟨g, hg, h⟩
    · simp [h]
    · simp [h]
    · simp [h]
    · rw [h]; exact hformatter g
  exact ⟨(hformatter f).1, (hformatter f).2, hpkg.1, hpkg.2⟩

/-- C10: the one-shot `Format` never returns `ErrFormatterClosed`: creation
failures carry the creation error, and the single handle call happens on the
freshly created, still-open handle before the deferred close. -/
theorem oneshot_never_closed_error (w : EngineWorld) (sql : String) (options : FormatOptions) :
    (Format w sql options).1.err ≠ some GoError.errFormatterClosed := by
  rcases oneshot_err_shape w sql options with ⟨m, h⟩ | ⟨m, h⟩ | ⟨m, h⟩ | ⟨g, hg, h⟩
  · simp [h]
  · simp [h]
  · simp [h]
  · rw [h]
    unfold Formatter.Format
    rw [hg]
    simp only [Bool.false_eq_true, if_false]
    cases hv : g.ctx sql (marshalFormatOptions options) with
    | error m => simp
    | ok v => cases v <;> simp

/-- C9: on every error path of a handle-level `Format` — closed handle,
engine-call failure, non-string result (option marshaling cannot fail for
this flat struct) — the string returned with the non-nil error is empty, so
a non-empty formatted string comes only with a nil error. -/
theorem error_paths_return_empty (f : Formatter) (sql : String) (options : FormatOptions)
    (h : (f.Format sql options).err ≠ none) :
    (f.Format sql options).out = "" := by
  unfold Formatter.Format at h ⊢
  cases hc : f.closed
  · simp only [hc, Bool.false_eq_true, if_false] at h
    simp only [Bool.false_eq_true, if_false]
    cases hv : f.ctx sql (marshalFormatOptions options) with
    | error m => simp [hv]
    | ok v =>
      cases v with
      | str s => rw [hv] at h; simp at h
      | other t => simp [hv]
  · simp

theorem error_paths_return_empty_witness :
    (({ ctx := stubEngine, closed := true } : Formatter).Format "x" DefaultFormatOptions).err
        ≠ none ∧
    (({ ctx := stubEngine, closed := true } : Formatter).Format "x" DefaultFormatOptions).out
        = "" :=
  ⟨by simp [Formatter.Format], error_paths_return_empty _ _ _ (by simp [Formatter.Format])⟩

/-- C5: `json.Marshal` of `FormatOptions` omits every field at its zero
value and renders every present field verbatim: for each of the thirteen
struct fields, the emitted pairs carrying that key are empty exactly when
the field is at its zero value and otherwise are exactly that key with the
field's value (enum fields JSON-quoted unchanged, integers in decimal,
booleans as `true`); JSON quoting leaves the enum tokens untransformed
(e.g. `tabularLeft`, not `tabular_left`), and the default options marshal
to the expected object text. -/
theorem optionFields_omitempty_exact_tokens (o : FormatOptions) :
    ((optionFields o).filter (fun q => q.1 == "dataTypeCase") =
      if o.DataTypeCase = "" then [] else [("dataTypeCase", jsonQuote o.DataTypeCase)]) ∧
    ((optionFields o).filter (fun q => q.1 == "denseOperators") =
      if o.DenseOperators = false then [] else [("denseOperators", "true")]) ∧
    ((optionFields o).filter (fun q => q.1 == "expressionWidth") =
      if o.ExpressionWidth = 0 then [] else [("expressionWidth", toString o.ExpressionWidth)]) ∧
    ((optionFields o).filter (fun q => q.1 == "functionCase") =
      if o.FunctionCase = "" then [] else [("functionCase", jsonQuote o.FunctionCase)]) ∧
    ((optionFields o).filter (fun q => q.1 == "identifierCase") =
      if o.IdentifierCase = "" then [] else [("identifierCase", jsonQuote o.IdentifierCase)]) ∧
    ((optionFields o).filter (fun q => q.1 == "indentStyle") =
      if o.IndentStyle = "" then [] else [("indentStyle", jsonQuote o.IndentStyle)]) ∧
    ((optionFields o).filter (fun q => q.1 == "keywordCase") =
      if o.KeywordCase = "" then [] else [("keywordCase", jsonQuote o.KeywordCase)]) ∧
    ((optionFields o).filter (fun q => q.1 == "language") =
      if o.Language = "" then [] else [("language", jsonQuote o.Language)]) ∧
    ((optionFields o).filter (fun q => q.1 == "linesBetweenQueries") =
      if o.LinesBetweenQueries = 0 then [] else
        [("linesBetweenQueries", toString o.LinesBetweenQueries)]) ∧
    ((optionFields o).filter (fun q => q.1 == "logicalOperatorNewline") =
      if o.LogicalOperatorNewline = "" then [] else
        [("logicalOperatorNewline", jsonQuote o.LogicalOperatorNewline)]) ∧
    ((optionFields o).filter (fun q => q.1 == "newlineBeforeSemicolon") =
      if o.NewlineBeforeSemicolon = false then [] else [("newlineBeforeSemicolon", "true")]) ∧
    ((optionFields o).filter (fun q => q.1 == "tabWidth") =
      if o.TabWidth = 0 then [] else [("tabWidth", toString o.TabWidth)]) ∧
    ((optionFields o).filter (fun q => q.1 == "useTabs") =
      if o.UseTabs = false then [] else [("useTabs", "true")]) ∧
    jsonQuote "tabularLeft" = "\"tabularLeft\"" ∧
    jsonQuote "preserve" = "\"preserve\"" ∧
    jsonQuote "before" = "\"before\"" ∧
    marshalFormatOptions DefaultFormatOptions =
      "\x7b\"dataTypeCase\":\"upper\",\"expressionWidth\":80,\"functionCase\":\"upper\",\"identifierCase\":\"preserve\",\"indentStyle\":\"standard\",\"keywordCase\":\"upper\",\"language\":\"sql\",\"linesBetweenQueries\":2,\"logicalOperatorNewline\":\"after\",\"newlineBeforeSemicolon\":true,\"tabWidth\":4\x7d" := by
  refine ⟨?_, ?_, ?_, ?_, ?_, ?_, ?_, ?_, ?_, ?_, ?_, ?_, ?_,
    by decide, by decide, by decide, by decide⟩ <;>
    simp [optionFields, List.filter_append, filter_ite_single]

theorem mem_handleProgs_head {p : List Action} (hp : p ∈ handleProgs) :
    ∃ tl, p = Action.lock :: tl := by
  simp only [handleProgs, formatOpenProg, formatClosedProg, closeOpenProg,
    List.mem_cons, List.mem_singleton, List.not_mem_nil, or_false] at hp
  rcases hp with h | h | h <;> exact ⟨_, h⟩

theorem mem_handleProgs_unlock_last {p : List Action} (hp : p ∈ handleProgs)
    {rest : List Action} (h : (Action.unlock :: rest) <:+ p) : rest = [] := by
  simp only [handleProgs, formatOpenProg, formatClosedProg, closeOpenProg,
    List.mem_cons, List.mem_singleton, List.not_mem_nil, or_false] at hp
  rcases hp with h' | h' | h' <;> subst h' <;>
    simp [List.suffix_cons_iff, List.suffix_nil] at h <;> exact h

theorem lockInv_init (progs : Nat → List Action) :
    LockInv progs { holder := none, rem := progs } :=
  ⟨fun t => List.suffix_refl _, fun t h _ => absurd rfl h⟩

theorem lockInv_step {progs : Nat → List Action} (hp : ∀ t, progs t ∈ handleProgs)
    {c d : Config} {p : Nat × Action}
    (hs : HStep c p d) (hinv : LockInv progs c) : LockInv progs d := by
  obtain ⟨hsuf, hcrit⟩ := hinv
  cases hs with
  | lockStep t rest hrem hfree =>
    constructor
    · intro u
      dsimp only
      by_cases hu : u = t
      · subst hu
        rw [Function.update_same]
        have h2 := hsuf u
        rw [hrem] at h2
        exact (List.suffix_cons Action.lock rest).trans h2
      · rw [Function.update_noteq hu]
        exact hsuf u
    · intro u hne hnil
      dsimp only at hne hnil ⊢
      by_cases hu : u = t
      · subst hu; rfl
      · exfalso
        rw [Function.update_noteq hu] at hne hnil
        have h1 := hcrit u hne hnil
        exact Option.noConfusion (h1.symm.trans hfree)
  | unlockStep t rest hrem =>
    have hrest : rest = [] := by
      apply mem_handleProgs_unlock_last (hp t)
      have h2 := hsuf t
      rw [hrem] at h2
      exact h2
    constructor
    · intro u
      dsimp only
      by_cases hu : u = t
      · subst hu
        rw [Function.update_same, hrest]
        exact List.nil_suffix
      · rw [Function.update_noteq hu]
        exact hsuf u
    · intro u hne hnil
      dsimp only at hne hnil ⊢
      by_cases hu : u = t
      · subst hu
        exact absurd (by rw [Function.update_same, hrest]) hnil
      · exfalso
        rw [Function.update_noteq hu] at hne hnil
        have h1 := hcrit u hne hnil
        have h2 : c.rem t ≠ progs t := by
          obtain ⟨tl, htl⟩ := mem_handleProgs_head (hp t)
          rw [hrem, htl]
          intro hEq
          simp at hEq
        have h3 : c.rem t ≠ [] := by rw [hrem]; simp
        have h4 := hcrit t h2 h3
        exact hu (Option.some.inj (h1.symm.trans h4))
  | workStep t a rest hrem hl hu2 =>
    have hcritT : c.holder = some t := by
      apply hcrit t
      · obtain ⟨tl, htl⟩ := mem_handleProgs_head (hp t)
        rw [hrem, htl]
        intro hEq
        injection hEq with hHead _
        exact hl hHead
      · rw [hrem]; simp
    constructor
    · intro u
      dsimp only
      by_cases hu : u = t
      · subst hu
        rw [Function.update_same]
        have h2 := hsuf u
        rw [hrem] at h2
        exact (List.suffix_cons a rest).trans h2
      · rw [Function.update_noteq hu]
        exact hsuf u
    · intro u hne hnil
      dsimp only at hne hnil ⊢
      by_cases hu : u = t
      · subst hu
        exact hcritT
      · exfalso
        rw [Function.update_noteq hu] at hne hnil
        have h1 := hcrit u hne hnil
        exact hu (Option.some.inj (h1.symm.trans hcritT))

theorem lockInv_reachable {progs : Nat → List Action} (hp : ∀ t, progs t ∈ handleProgs)
    {c : Config} (hr : Reachable progs c) : LockInv progs c := by
  induction hr with
  | init => exact lockInv_init progs
  | step h1 h2 ih => exact lockInv_step hp h2 ih

theorem hstep_rem_head {c : Config} {v : Nat} {x : Action} {d : Config}
    (hs : HStep c (v, x) d) : ∃ rest, c.rem v = x :: rest := by
  cases hs
  all_goals exact ⟨_, by assumption⟩

/-- C8: operations against one handle are fully serialized by its lock.  In
the interleaving model where each thread runs one `Format`/`Close` action
sequence and only the mutex semantics is imposed, whenever two lock-free
actions (engine access, option marshaling, flag reads and writes) are both
enabled at a reachable configuration they belong to the same thread, and
that thread holds the lock — so concurrent `Format` calls never interleave
engine access, `Format` and `Close` are mutually exclusive, and the lock is
held for the full duration of any action touching the engine context. -/
theorem handle_ops_serialized (progs : Nat → List Action) (c : Config)
    (hp : ∀ t, progs t ∈ handleProgs) (hr : Reachable progs c)
    (t u : Nat) (a b : Action) (d e : Config)
    (hs : HStep c (t, a) d) (ha : a ≠ Action.lock) (ha2 : a ≠ Action.unlock)
    (ht : HStep c (u, b) e) (hb : b ≠ Action.lock) (hb2 : b ≠ Action.unlock) :
    t = u ∧ c.holder = some t := by
  obtain ⟨hsuf, hcrit⟩ := lockInv_reachable hp hr
  have key : ∀ (v : Nat) (x : Action) (g : Config), HStep c (v, x) g →
      x ≠ Action.lock → c.holder = some v := by
    intro v x g hsx hx
    obtain ⟨rest, hrem⟩ := hstep_rem_head hsx
    apply hcrit v
    · obtain ⟨tl, htl⟩ := mem_handleProgs_head (hp v)
      rw [hrem, htl]
      intro hEq
      injection hEq with hHead _
      exact hx hHead
    · rw [hrem]; simp
  have h1 := key t a d hs ha
  have h2 := key u b e ht hb
  exact ⟨Option.some.inj (h1.symm.trans h2), h1⟩

theorem handle_ops_serialized_witness :
    Reachable progs0 cfg1 ∧
    HStep cfg1 (0, Action.checkClosed) cfg2 ∧
    ((0 : Nat) = 0 ∧ cfg1.holder = some 0) := by
  have hp : ∀ t, progs0 t ∈ handleProgs := by
    intro t
    simp [progs0, handleProgs]
  have hstep1 : HStep cfg0 (0, Action.lock) cfg1 :=
    HStep.lockStep cfg0 0 [Action.checkClosed, Action.setClosed, Action.unlock] rfl rfl
  have hreach : Reachable progs0 cfg1 := Reachable.step Reachable.init hstep1
  have hstep2 : HStep cfg1 (0, Action.checkClosed) cfg2 :=
    HStep.workStep cfg1 0 Action.checkClosed [Action.setClosed, Action.unlock]
      (by simp [cfg1, Function.update_same]) (by decide) (by decide)
  exact ⟨hreach, hstep2,
    handle_ops_serialized progs0 cfg1 hp hreach 0 0 Action.checkClosed Action.checkClosed
      cfg2 cfg2 hstep2 (by decide) (by decide) hstep2 (by decide) (by decide)⟩

end sqlfmt
